import Mathlib

/-!
Shallow embedding of the orchestration script `Orchestrator.py` of the
LXC-Threat-API-Mapping workflow, together with proofs of its specified
properties.

The script drives four external tools (extraction, enrichment, mapping,
visualization).  We model the outside world by an explicit environment
`Env` giving, for every command, its exit status and its effect on the
file system, plus the JSON decoding of the threat-map artifact.  The
mutable state of a run is `St`: the file system (file contents), the set
of directories, the stdout and stderr lines printed so far, and the trace
of external invocations (each recorded together with a snapshot of the
file system and directory set at the moment of the call).  Fatal
termination via `sys.exit` is modelled by `Except (Int × St) St`: an
`error (n, s)` is a process exit with code `n` in final state `s`.
-/

namespace Orch

/-- File system: maps a path to the content of the file there, if any. -/
abbrev FS : Type := String → Option String

/-- Directory set: which paths are directories. -/
abbrev DS : Type := String → Bool

/-- An external command: argument vector and optional working directory,
as passed to `subprocess.run(cmd, cwd=cwd)`. -/
structure Cmd where
  argv : List String
  cwd : Option String

/-- A threat-map entry as read from `threat_map.json`.  `entry.get(k)`
in Python yields `None` for a missing key, hence `Option` fields. -/
structure Entry where
  file : Option String
  api : Option String
  code_root : Option String

/-- The environment: behaviour of the external tools and of JSON parsing.
`exit c f` is the exit status of running `c` on file system `f`;
`eff c f` is the file system after running `c` on `f`;
`decode` is `json.load` on a file's content. -/
structure Env where
  exit : Cmd → FS → Int
  eff : Cmd → FS → FS
  decode : String → Option (List Entry)

/-- Run state: file system, directories, stdout lines, stderr lines, and
the trace of external invocations (with the file system and directory
snapshot taken when each call was issued). -/
structure St where
  fs : FS
  dirs : DS
  out : List String
  err : List String
  calls : List (Cmd × FS × DS)

/-- `os.path.exists p`: true if a file or a directory is at `p`. -/
def path_exists (s : St) (p : String) : Bool :=
  (s.fs p).isSome || s.dirs p

/-- `' '.join(cmd)` -/
def joinSpace (l : List String) : String :=
  String.intercalate " " l

/-- The stderr diagnostic printed by `run_command` on failure. -/
def cmdFail (c : Cmd) : String :=
  "Command failed: " ++ joinSpace c.argv

/-- `run_command(cmd, cwd)` from `Orchestrator.py`: print the command,
run it via `subprocess.run`, and on a non-zero exit status print a
diagnostic to stderr and terminate the whole process with that status. -/
def run_command (env : Env) (cmd : Cmd) (s : St) : Except (Int × St) St :=
  let s1 : St :=
    { s with
      out := s.out ++ ["Running: " ++ joinSpace cmd.argv],
      calls := s.calls ++ [(cmd, s.fs, s.dirs)],
      fs := env.eff cmd s.fs }
  if env.exit cmd s.fs = 0 then .ok s1
  else .error (env.exit cmd s.fs, { s1 with err := s1.err ++ [cmdFail cmd] })

/-- `sys.executable` -/
def sys_executable : String := "python3"

/-- The extraction-stage command (stage 1 of `ensure_mapping`). -/
def extract_cmd (sbom risk lxc : String) : Cmd :=
  ⟨[sys_executable, "nvd_api_extractor.py", "--sbom", sbom, "--out", risk], some lxc⟩

/-- The enrichment-stage command (stage 2 of `ensure_mapping`). -/
def enrich_cmd (risk enriched lxc : String) : Cmd :=
  ⟨[sys_executable, "llm_api_enricher.py", risk, "--out", enriched], some lxc⟩

/-- The mapping-stage command (stage 3 of `ensure_mapping`). -/
def map_cmd (code enriched tmap lxc : String) : Cmd :=
  ⟨[sys_executable, "threat_api_mapper.py", "--code", code, "--risk", enriched,
    "--out", tmap], some lxc⟩

/-- Stage 1 of `ensure_mapping`: produce `risk_db.json` from the SBOM,
unless it already exists. -/
def stage_extract (env : Env) (lxc sbom risk : String) (s : St) :
    Except (Int × St) St :=
  if !(path_exists s risk) then
    run_command env (extract_cmd sbom risk lxc) s
  else
    .ok { s with out := s.out ++ ["Found existing risk DB: " ++ risk] }

/-- Stage 2 of `ensure_mapping`: LLM enrichment of the risk DB, unless
its output already exists. -/
def stage_enrich (env : Env) (lxc risk enriched : String) (s : St) :
    Except (Int × St) St :=
  if !(path_exists s enriched) then
    run_command env (enrich_cmd risk enriched lxc) s
  else
    .ok { s with out := s.out ++ ["Found existing enriched DB: " ++ enriched] }

/-- Stage 3 of `ensure_mapping`: produce `threat_map.json` by scanning
the codebase, unless it already exists. -/
def stage_map (env : Env) (lxc code enriched tmap : String) (s : St) :
    Except (Int × St) St :=
  if !(path_exists s tmap) then
    run_command env (map_cmd code enriched tmap lxc) s
  else
    .ok { s with out := s.out ++ ["Found existing threat map: " ++ tmap] }

/-- Fail-fast sequencing: a `sys.exit` (the `error` case) short-circuits
everything after it. -/
def seqE (r : Except (Int × St) St) (g : St → Except (Int × St) St) :
    Except (Int × St) St :=
  match r with
  | .error e => .error e
  | .ok s => g s

/-- `ensure_mapping` from `Orchestrator.py`: the three gated stages in
order.  A `sys.exit` inside `run_command` short-circuits the rest. -/
def ensure_mapping (env : Env) (lxc code sbom risk enriched tmap : String)
    (s : St) : Except (Int × St) St :=
  seqE (stage_extract env lxc sbom risk s) (fun s =>
    seqE (stage_enrich env lxc risk enriched s) (fun s =>
      stage_map env lxc code enriched tmap s))

/-- Characters stripped by `api_pattern.strip('^$\\')`. -/
def is_anchor (c : Char) : Bool :=
  c = '^' || c = '$' || c = '\\'

/-- Python `str.strip('^$\\')`: remove every leading and every trailing
character belonging to the set, leaving the interior untouched. -/
def pyStrip (p : String) : String :=
  ⟨((p.data.dropWhile is_anchor).reverse.dropWhile is_anchor).reverse⟩

/-- `posixpath.basename p`: everything after the last slash. -/
def basename (p : String) : String :=
  ⟨(p.data.reverse.takeWhile (fun c => c ≠ '/')).reverse⟩

/-- Index of the last occurrence of `c` in `l`, or `-1` (Python `rfind`). -/
def rfindIdx (l : List Char) (c : Char) : Int :=
  match (l.reverse.findIdx? (fun x => x = c)) with
  | none => -1
  | some j => ((l.length - 1 - j : Nat) : Int)

/-- `posixpath.splitext(p)[0]`: cut at the last dot, unless that dot
belongs to a run of leading dots of the final path component. -/
def splitext_root (p : String) : String :=
  let l := p.data
  let sepIdx := rfindIdx l '/'
  let dotIdx := rfindIdx l '.'
  if dotIdx > sepIdx then
    let start := (sepIdx + 1).toNat
    let stop := dotIdx.toNat
    if ((l.drop start).take (stop - start)).all (fun c => c = '.') then p
    else ⟨l.take stop⟩
  else p

/-- Python `s.startswith('/')`. -/
def startswith_slash (s : String) : Bool :=
  s.data.head? == some '/'

/-- Python `s.endswith('/')`. -/
def endswith_slash (s : String) : Bool :=
  s.data.getLast? == some '/'

/-- `posixpath.join a b` (two-argument case). -/
def path_join (a b : String) : String :=
  if startswith_slash b then b
  else if a = "" || endswith_slash a then a ++ b
  else a ++ "/" ++ b

/-- `posixpath.isabs` -/
def isabs (p : String) : Bool := startswith_slash p

/-- `os.makedirs d` (no parent handling needed in this model). -/
def makedirs (s : St) (d : String) : St :=
  { s with dirs := fun p => p == d || s.dirs p }

/-- The validity test of the loop in `visualize_calls`:
`if not file_path or not api_pattern: continue` — a missing key or an
empty string is falsy. -/
def entry_valid (e : Entry) : Bool :=
  !(e.file.getD "" == "") && !(e.api.getD "" == "")

/-- `abs_file = os.path.join(entry.get('code_root', ''), file_path)` -/
def abs_file (e : Entry) : String :=
  path_join (e.code_root.getD "") (e.file.getD "")

/-- `basename = os.path.splitext(os.path.basename(file_path))[0]` -/
def base_name (e : Entry) : String :=
  splitext_root (basename (e.file.getD ""))

/-- `target_name = api_pattern.strip('^$\\')` -/
def target_name (e : Entry) : String :=
  pyStrip (e.api.getD "")

/-- `out_png = os.path.join(output_dir, f"{basename}_{target_name}.png")` -/
def out_png (output_dir : String) (e : Entry) : String :=
  path_join output_dir (base_name e ++ "_" ++ target_name e ++ ".png")

/-- The visualization command built for one entry. -/
def viz_cmd (ast_path output_dir : String) (e : Entry) : Cmd :=
  ⟨[sys_executable, path_join ast_path "astvisualizer.py",
    "-f", abs_file e,
    "--target", target_name e,
    "-o", out_png output_dir e], none⟩

/-- One iteration of the loop in `visualize_calls`:  invalid entries are
skipped, valid ones trigger the visualization tool and a confirmation
line. -/
def visualize_entry (env : Env) (ast_path output_dir : String) (e : Entry)
    (s : St) : Except (Int × St) St :=
  if entry_valid e then
    seqE (run_command env (viz_cmd ast_path output_dir e) s) (fun s =>
      .ok { s with out := s.out ++ ["Generated diagram: " ++ out_png output_dir e] })
  else .ok s

/-- The `for entry in data` loop of `visualize_calls`. -/
def visualize_loop (env : Env) (ast_path output_dir : String) :
    List Entry → St → Except (Int × St) St
  | [], s => .ok s
  | e :: rest, s =>
    seqE (visualize_entry env ast_path output_dir e s)
      (visualize_loop env ast_path output_dir rest)

/-- `visualize_calls` from `Orchestrator.py`: create the output
directory if absent, load and decode `threat_map.json` (an unreadable or
undecodable artifact is an uncaught exception, i.e. process exit 1),
then run the loop. -/
def visualize_calls (env : Env) (ast_path tmap output_dir : String) (s : St) :
    Except (Int × St) St :=
  let s := if !(path_exists s output_dir) then makedirs s output_dir else s
  match s.fs tmap with
  | none => .error (1, s)
  | some content =>
    match env.decode content with
    | none => .error (1, s)
    | some entries => visualize_loop env ast_path output_dir entries s

/-- `main` after argument parsing: fixed intermediate artifact names
inside the LXC repo, then the pipeline, then visualization.  The pair
returned is the process exit code and the final state. -/
def workflow (env : Env) (lxc astviz code sbom out_dir : String) (s0 : St) :
    Int × St :=
  let risk := path_join lxc "risk_db.json"
  let enriched := path_join lxc "risk_db_llm.json"
  let tmap := path_join lxc "threat_map.json"
  match seqE (ensure_mapping env lxc code sbom risk enriched tmap s0)
      (fun s => visualize_calls env astviz tmap out_dir s) with
  | .error (n, s) => (n, s)
  | .ok s =>
    (0, { s with out := s.out ++
      ["워크플로우 완료. threat_map.json과 시각화 이미지를 확인하세요."] })

/-! ### Pattern normalization: helper lemmas -/

/-- The two one-sided strips recompose the list they were taken from. -/
lemma rdw_append_rtw (q : Char → Bool) (l : List Char) :
    List.rdropWhile q l ++ List.rtakeWhile q l = l := by
  rw [List.rdropWhile, List.rtakeWhile, ← List.reverse_append,
    List.takeWhile_append_dropWhile, List.reverse_reverse]

/-- `pyStrip` is the right strip of the left strip. -/
lemma pyStrip_data (p : String) :
    (pyStrip p).data = List.rdropWhile is_anchor (p.data.dropWhile is_anchor) := rfl

/-- The head surviving `dropWhile q` fails `q`. -/
lemma head_dropWhile_false (q : Char → Bool) :
    ∀ (l : List Char) (a : Char) (t : List Char), l.dropWhile q = a :: t → q a = false := by
  intro l
  induction l with
  | nil => intro a t h; simp [List.dropWhile] at h
  | cons x xs ih =>
    intro a t h
    rw [List.dropWhile_cons] at h
    by_cases hx : q x = true
    · rw [if_pos hx] at h; exact ih a t h
    · rw [if_neg hx] at h
      cases h
      simpa using hx

/-- The head of a stripped pattern is not an anchor character. -/
lemma pyStrip_head_false (p : String) (a : Char) (t : List Char)
    (h : (pyStrip p).data = a :: t) : is_anchor a = false := by
  have hdec := rdw_append_rtw is_anchor (p.data.dropWhile is_anchor)
  rw [pyStrip_data] at h
  rw [h] at hdec
  exact head_dropWhile_false is_anchor p.data a _ hdec.symm

/-- The last character of a stripped pattern is not an anchor character. -/
lemma pyStrip_getLast_false (p : String) (a : Char)
    (h : (pyStrip p).data.getLast? = some a) : is_anchor a = false := by
  rw [pyStrip_data, List.rdropWhile, List.getLast?_reverse] at h
  cases hcase : List.dropWhile is_anchor (p.data.dropWhile is_anchor).reverse with
  | nil => rw [hcase] at h; simp at h
  | cons b t =>
    rw [hcase] at h
    simp only [List.head?_cons, Option.some.injEq] at h
    subst h
    exact head_dropWhile_false is_anchor _ b t hcase

/-- A list whose head fails `q` is untouched by `dropWhile q`. -/
lemma dropWhile_of_head_false (q : Char → Bool) (l : List Char)
    (h : ∀ a t, l = a :: t → q a = false) : l.dropWhile q = l := by
  cases l with
  | nil => rfl
  | cons a t => rw [List.dropWhile_cons, h a t rfl]; simp

/-- Claim C5: the normalized target identifier is the `api` string with
all leading and trailing characters from `{^, $, \}` removed and the
interior untouched: the original splits as anchors ++ result ++ anchors,
and the result itself neither starts nor ends with an anchor; in
particular the pattern string with characters `^os\.system$` normalizes
to `os\.system` (interior backslash preserved). -/
theorem C5_pattern_normalization (p : String) :
    (∃ pre suf : List Char,
      p.data = pre ++ (pyStrip p).data ++ suf ∧
      (∀ c ∈ pre, is_anchor c = true) ∧
      (∀ c ∈ suf, is_anchor c = true) ∧
      (∀ c ∈ (pyStrip p).data.head?, is_anchor c = false) ∧
      (∀ c ∈ (pyStrip p).data.getLast?, is_anchor c = false)) ∧
    pyStrip "^os\\.system$" = "os\\.system" := by
  constructor
  · refine ⟨p.data.takeWhile is_anchor,
      List.rtakeWhile is_anchor (p.data.dropWhile is_anchor), ?_, ?_, ?_, ?_, ?_⟩
    · rw [pyStrip_data, List.append_assoc, rdw_append_rtw,
        List.takeWhile_append_dropWhile]
    · intro c hc; exact List.mem_takeWhile_imp hc
    · intro c hc; exact List.mem_rtakeWhile_imp hc
    · intro c hc
      cases hcase : (pyStrip p).data with
      | nil => rw [hcase] at hc; simp at hc
      | cons a t =>
        rw [hcase] at hc
        simp only [List.head?_cons, Option.mem_def, Option.some.injEq] at hc
        subst hc
        exact pyStrip_head_false p _ t hcase
    · intro c hc
      exact pyStrip_getLast_false p c (Option.mem_def.mp hc)
  · decide

/-- Witness for C5, evaluating the normalization at the concrete
example pattern. -/
theorem C5_pattern_normalization_witness :
    pyStrip "^os\\.system$" = "os\\.system" :=
  (C5_pattern_normalization "^os\\.system$").2

/-- Claim C6: the boundary-stripping normalization is idempotent. -/
theorem C6_normalization_idempotent (s : String) :
    pyStrip (pyStrip s) = pyStrip s := by
  have hdw : List.dropWhile is_anchor (pyStrip s).data = (pyStrip s).data :=
    dropWhile_of_head_false is_anchor _ (fun a t h => pyStrip_head_false s a t h)
  have h1 : (pyStrip (pyStrip s)).data = (pyStrip s).data := by
    rw [pyStrip_data (pyStrip s), hdw, pyStrip_data s]
    exact List.rdropWhile_idempotent _ _
  exact congrArg String.mk h1

/-- Witness for C6 at a concrete pattern string. -/
theorem C6_normalization_idempotent_witness :
    pyStrip (pyStrip "^os\\.system$") = pyStrip "^os\\.system$" :=
  C6_normalization_idempotent "^os\\.system$"

/-! ### Claims C2 and C4 -/

/-- Claim C2: for each of the three pipeline stages, when a file already
exists at the stage's output artifact path, the stage invokes no
external tool, emits the informational reuse message, and leaves the
whole file system (hence the artifact's content) unchanged. -/
theorem C2_stage_gate_reuse (env : Env) (lxc sbom code risk enriched tmap : String)
    (s : St) :
    (path_exists s risk = true →
      stage_extract env lxc sbom risk s =
        .ok { s with out := s.out ++ ["Found existing risk DB: " ++ risk] }) ∧
    (path_exists s enriched = true →
      stage_enrich env lxc risk enriched s =
        .ok { s with out := s.out ++ ["Found existing enriched DB: " ++ enriched] }) ∧
    (path_exists s tmap = true →
      stage_map env lxc code enriched tmap s =
        .ok { s with out := s.out ++ ["Found existing threat map: " ++ tmap] }) := by
  refine ⟨fun h => ?_, fun h => ?_, fun h => ?_⟩ <;>
    simp [stage_extract, stage_enrich, stage_map, h]

def c2_env : Env := ⟨fun _ _ => 0, fun _ f => f, fun _ => none⟩

def c2_st : St :=
  { fs := fun p => if p = "r" ∨ p = "e" ∨ p = "t" then some "db" else none,
    dirs := fun _ => false, out := [], err := [], calls := [] }

/-- Witness for C2 at a concrete state in which all three artifacts exist. -/
theorem C2_stage_gate_reuse_witness :
    (stage_extract c2_env "L" "s" "r" c2_st =
      .ok { c2_st with out := c2_st.out ++ ["Found existing risk DB: " ++ "r"] }) ∧
    (stage_enrich c2_env "L" "r" "e" c2_st =
      .ok { c2_st with out := c2_st.out ++ ["Found existing enriched DB: " ++ "e"] }) ∧
    (stage_map c2_env "L" "c" "e" "t" c2_st =
      .ok { c2_st with out := c2_st.out ++ ["Found existing threat map: " ++ "t"] }) := by
  obtain ⟨h1, h2, h3⟩ := C2_stage_gate_reuse c2_env "L" "s" "c" "r" "e" "t" c2_st
  exact ⟨h1 (by decide), h2 (by decide), h3 (by decide)⟩

/-- Claim C4: an entry whose `file` or `api` field is missing or empty
triggers no visualization invocation, leaves the state untouched, and
the loop simply continues with the remaining entries; it never makes
the run fail. -/
theorem C4_invalid_entry_skipped (env : Env) (ast outd : String) (e : Entry)
    (rest : List Entry) (s : St) (h : entry_valid e = false) :
    visualize_entry env ast outd e s = .ok s ∧
    visualize_loop env ast outd (e :: rest) s = visualize_loop env ast outd rest s := by
  have h1 : visualize_entry env ast outd e s = .ok s := by
    simp [visualize_entry, h]
  refine ⟨h1, ?_⟩
  simp [visualize_loop, h1, seqE]

def c4_env : Env := ⟨fun _ _ => 0, fun _ f => f, fun _ => none⟩

def c4_st : St := ⟨fun _ => none, fun _ => false, [], [], []⟩

def c4_bad : Entry := ⟨none, some "^eval$", none⟩

/-- Witness for C4 at a concrete entry lacking the `file` field. -/
theorem C4_invalid_entry_skipped_witness :
    visualize_entry c4_env "a" "o" c4_bad c4_st = .ok c4_st ∧
    visualize_loop c4_env "a" "o" (c4_bad :: []) c4_st =
      visualize_loop c4_env "a" "o" [] c4_st :=
  C4_invalid_entry_skipped c4_env "a" "o" c4_bad [] c4_st (by decide)

/-! ### Claims C7, C8, C9: path resolution and output naming -/

/-- Claim C7: the output image path is `<output_dir>/<base_name>_<target>.png`;
for source file `app/utils.py` and normalized target `eval` it is
`<output_dir>/utils_eval.png` (for an output directory that is neither
empty nor slash-terminated, where the join inserts exactly one slash),
and the command issued for the entry — hence its position-independent
output path — is a pure function of the entry alone. -/
theorem C7_output_naming (outd ast : String) (e : Entry)
    (hne : outd ≠ "") (hslash : endswith_slash outd = false)
    (hf : e.file = some "app/utils.py") (ha : target_name e = "eval") :
    out_png outd e = outd ++ "/utils_eval.png" ∧
    (viz_cmd ast outd e).argv =
      [sys_executable, path_join ast "astvisualizer.py", "-f", abs_file e,
       "--target", "eval", "-o", outd ++ "/utils_eval.png"] := by
  have hb : base_name e = "utils" := by
    show splitext_root (basename (e.file.getD "")) = "utils"
    rw [hf]; decide
  have hname : base_name e ++ "_" ++ target_name e ++ ".png" = "utils_eval.png" := by
    rw [hb, ha]; rfl
  have hpng : out_png outd e = outd ++ "/utils_eval.png" := by
    show path_join outd (base_name e ++ "_" ++ target_name e ++ ".png") = _
    rw [hname]
    simp only [path_join]
    rw [if_neg (by decide), if_neg (by simp [hne, hslash])]
    rw [String.append_assoc]
    rfl
  refine ⟨hpng, ?_⟩
  show [sys_executable, path_join ast "astvisualizer.py", "-f", abs_file e,
    "--target", target_name e, "-o", out_png outd e] = _
  rw [ha, hpng]

def c7_entry : Entry := ⟨some "app/utils.py", some "^eval$", none⟩

/-- Witness for C7 at a concrete entry and output directory. -/
theorem C7_output_naming_witness :
    out_png "out" c7_entry = "out" ++ "/utils_eval.png" ∧
    (viz_cmd "ast" "out" c7_entry).argv =
      [sys_executable, path_join "ast" "astvisualizer.py", "-f", abs_file c7_entry,
       "--target", "eval", "-o", "out" ++ "/utils_eval.png"] :=
  C7_output_naming "out" "ast" c7_entry (by decide) (by decide) rfl (by decide)

def c8_entry : Entry := ⟨some "app/utils.py", some "^eval$", none⟩

/-- Counterexample to claim C8 as stated: for an entry with no
`code_root` and a relative `file`, the path passed to the visualization
tool after `-f` is the join result `app/utils.py`, which is not an
absolute path. -/
theorem C8_counterexample :
    (viz_cmd "ast" "out" c8_entry).argv.get? 3 = some (abs_file c8_entry) ∧
    abs_file c8_entry = "app/utils.py" ∧
    isabs (abs_file c8_entry) = false :=
  ⟨rfl, by decide, by decide⟩

/-- Claim C8 (amended): the path passed to the visualization tool after
the `-f` flag is obtained by joining the entry's `code_root` (defaulting
to the empty string when absent) with its `file`; it is not absolute in
general, but it is absolute whenever `code_root` is absolute (stated
here for a `file` that is not itself absolute; the absolute-`file` case
is claim C9). -/
theorem C8_resolved_path (ast outd : String) (e : Entry) (root f : String)
    (hr : e.code_root.getD "" = root) (hf : e.file.getD "" = f) :
    (viz_cmd ast outd e).argv.get? 3 = some (abs_file e) ∧
    abs_file e = path_join root f ∧
    (isabs root = true → isabs f = false → isabs (abs_file e) = true) := by
  have h1 : abs_file e = path_join root f := by
    show path_join (e.code_root.getD "") (e.file.getD "") = _
    rw [hr, hf]
  refine ⟨rfl, h1, fun habs hnabs => ?_⟩
  have hd : root.data.head? = some '/' := by
    simpa [isabs, startswith_slash] using habs
  have key : ∀ t : String, isabs (root ++ t) = true := by
    intro t
    simp only [isabs, startswith_slash, String.data_append, List.head?_append, hd]
    rfl
  rw [h1]
  simp only [path_join]
  rw [if_neg (by simpa [isabs] using hnabs)]
  split
  · exact key f
  · rw [String.append_assoc]
    exact key ("/" ++ f)

def c8w_entry : Entry := ⟨some "app/utils.py", some "^eval$", some "/base"⟩

/-- Witness for the amended claim C8 at a concrete entry with an
absolute `code_root`. -/
theorem C8_resolved_path_witness :
    (viz_cmd "ast" "out" c8w_entry).argv.get? 3 = some (abs_file c8w_entry) ∧
    abs_file c8w_entry = path_join "/base" "app/utils.py" ∧
    isabs (abs_file c8w_entry) = true := by
  obtain ⟨h1, h2, h3⟩ :=
    C8_resolved_path "ast" "out" c8w_entry "/base" "app/utils.py" rfl rfl
  exact ⟨h1, h2, h3 (by decide) (by decide)⟩

/-- Claim C9: when the entry's `file` is itself absolute, the resolved
source path is `file` exactly, and `code_root` is ignored: replacing it
by anything else yields the same resolved path. -/
theorem C9_absolute_file_wins (e : Entry) (f : String)
    (hf : e.file = some f) (habs : isabs f = true) :
    abs_file e = f ∧
    ∀ root : Option String, abs_file { e with code_root := root } = f := by
  have key : ∀ a : String, path_join a f = f := by
    intro a
    simp only [path_join]
    rw [if_pos (by simpa [isabs] using habs)]
  constructor
  · show path_join (e.code_root.getD "") (e.file.getD "") = f
    rw [hf]
    exact key _
  · intro root
    show path_join (root.getD "") (({ e with code_root := root } : Entry).file.getD "") = f
    rw [hf]
    exact key _

def c9_entry : Entry := ⟨some "/abs/mod.py", some "eval", some "/other/root"⟩

/-- Witness for C9 at a concrete entry with an absolute `file`. -/
theorem C9_absolute_file_wins_witness :
    abs_file c9_entry = "/abs/mod.py" ∧
    ∀ root : Option String, abs_file { c9_entry with code_root := root } = "/abs/mod.py" :=
  C9_absolute_file_wins c9_entry "/abs/mod.py" rfl (by decide)

/-! ### Claim C1: fatal propagation of external failures -/

/-- All invocations in `l` exited with status `0` (the exit status is a
function of the command and of the file-system snapshot at the call). -/
def callsOk (env : Env) (l : List (Cmd × FS × DS)) : Prop :=
  ∀ p ∈ l, env.exit p.1 p.2.1 = 0

/-- Behaviour common to every step of the workflow, relative to the
state `s` it started from: on normal return only successful invocations
were appended and nothing was written to stderr; on fatal termination
either the last appended invocation failed with exactly the propagated
status after a stderr diagnostic naming it (the `run_command` path), or
the step died with no failing invocation and no stderr line (the
uncaught-exception path of `visualize_calls`). -/
def StepSpec (env : Env) (s : St) : Except (Int × St) St → Prop
  | .ok s' => ∃ ex, s'.calls = s.calls ++ ex ∧ callsOk env ex ∧ s'.err = s.err
  | .error (n, s') =>
      (∃ ex c fd, s'.calls = s.calls ++ ex ++ [(c, fd)] ∧ callsOk env ex ∧
        env.exit c fd.1 = n ∧ n ≠ 0 ∧ s'.err = s.err ++ [cmdFail c]) ∨
      (∃ ex, s'.calls = s.calls ++ ex ∧ callsOk env ex ∧ s'.err = s.err)

lemma callsOk_nil (env : Env) : callsOk env [] :=
  fun p hp => absurd hp (List.not_mem_nil p)

lemma callsOk_append (env : Env) {l₁ l₂ : List (Cmd × FS × DS)}
    (h1 : callsOk env l₁) (h2 : callsOk env l₂) : callsOk env (l₁ ++ l₂) := by
  intro p hp
  rcases List.mem_append.mp hp with h | h
  exacts [h1 p h, h2 p h]

lemma stepSpec_ok_self (env : Env) {s s' : St} (hc : s'.calls = s.calls)
    (he : s'.err = s.err) : StepSpec env s (.ok s') :=
  ⟨[], by simpa using hc, callsOk_nil env, he⟩

lemma stepSpec_run_command (env : Env) (c : Cmd) (s : St) :
    StepSpec env s (run_command env c s) := by
  unfold run_command
  by_cases h : env.exit c s.fs = 0
  · rw [if_pos h]
    refine ⟨[(c, s.fs, s.dirs)], rfl, ?_, rfl⟩
    intro p hp
    rw [List.mem_singleton] at hp
    subst hp
    exact h
  · rw [if_neg h]
    exact Or.inl ⟨[], c, (s.fs, s.dirs), by simp, callsOk_nil env, rfl, h, rfl⟩

lemma stepSpec_seqE (env : Env) {s : St} {r : Except (Int × St) St}
    {g : St → Except (Int × St) St}
    (h1 : StepSpec env s r) (h2 : ∀ s', StepSpec env s' (g s')) :
    StepSpec env s (seqE r g) := by
  cases r with
  | error e =>
    rcases e with ⟨n, s'⟩
    exact h1
  | ok s1 =>
    obtain ⟨ex0, hc0, hok0, he0⟩ := h1
    have h2' := h2 s1
    show StepSpec env s (g s1)
    cases hg : g s1 with
    | ok s2 =>
      rw [hg] at h2'
      obtain ⟨ex1, hc1, hok1, he1⟩ := h2'
      exact ⟨ex0 ++ ex1, by rw [hc1, hc0, List.append_assoc],
        callsOk_append env hok0 hok1, by rw [he1, he0]⟩
    | error e =>
      rcases e with ⟨n, s2⟩
      rw [hg] at h2'
      rcases h2' with ⟨ex1, c, fd, hc1, hok1, hex, hn, he1⟩ | ⟨ex1, hc1, hok1, he1⟩
      · exact Or.inl ⟨ex0 ++ ex1, c, fd,
          by rw [hc1, hc0]; simp [List.append_assoc],
          callsOk_append env hok0 hok1, hex, hn, by rw [he1, he0]⟩
      · exact Or.inr ⟨ex0 ++ ex1, by rw [hc1, hc0, List.append_assoc],
          callsOk_append env hok0 hok1, by rw [he1, he0]⟩

lemma stepSpec_stage_extract (env : Env) (lxc sbom risk : String) (s : St) :
    StepSpec env s (stage_extract env lxc sbom risk s) := by
  unfold stage_extract
  split
  · exact stepSpec_run_command env _ s
  · exact stepSpec_ok_self env rfl rfl

lemma stepSpec_stage_enrich (env : Env) (lxc risk enriched : String) (s : St) :
    StepSpec env s (stage_enrich env lxc risk enriched s) := by
  unfold stage_enrich
  split
  · exact stepSpec_run_command env _ s
  · exact stepSpec_ok_self env rfl rfl

lemma stepSpec_stage_map (env : Env) (lxc code enriched tmap : String) (s : St) :
    StepSpec env s (stage_map env lxc code enriched tmap s) := by
  unfold stage_map
  split
  · exact stepSpec_run_command env _ s
  · exact stepSpec_ok_self env rfl rfl

lemma stepSpec_ensure_mapping (env : Env) (lxc code sbom risk enriched tmap : String)
    (s : St) : StepSpec env s (ensure_mapping env lxc code sbom risk enriched tmap s) :=
  stepSpec_seqE env (stepSpec_stage_extract env lxc sbom risk s)
    (fun s1 => stepSpec_seqE env (stepSpec_stage_enrich env lxc risk enriched s1)
      (fun s2 => stepSpec_stage_map env lxc code enriched tmap s2))

lemma stepSpec_visualize_entry (env : Env) (ast outd : String) (e : Entry) (s : St) :
    StepSpec env s (visualize_entry env ast outd e s) := by
  unfold visualize_entry
  split
  · exact stepSpec_seqE env (stepSpec_run_command env _ s)
      (fun s' => stepSpec_ok_self env rfl rfl)
  · exact stepSpec_ok_self env rfl rfl

lemma stepSpec_visualize_loop (env : Env) (ast outd : String) :
    ∀ (l : List Entry) (s : St), StepSpec env s (visualize_loop env ast outd l s) := by
  intro l
  induction l with
  | nil => intro s; exact stepSpec_ok_self env rfl rfl
  | cons e rest ih =>
    intro s
    exact stepSpec_seqE env (stepSpec_visualize_entry env ast outd e s)
      (fun s' => ih s')

lemma stepSpec_of_calls_err (env : Env) {s t : St} {r : Except (Int × St) St}
    (hc : t.calls = s.calls) (he : t.err = s.err)
    (h : StepSpec env t r) : StepSpec env s r := by
  cases r with
  | ok s' =>
    obtain ⟨ex, h1, h2, h3⟩ := h
    exact ⟨ex, by rw [h1, hc], h2, by rw [h3, he]⟩
  | error e =>
    rcases e with ⟨n, s'⟩
    rcases h with ⟨ex, c, fd, h1, h2, h3, h4, h5⟩ | ⟨ex, h1, h2, h3⟩
    · exact Or.inl ⟨ex, c, fd, by rw [h1, hc], h2, h3, h4, by rw [h5, he]⟩
    · exact Or.inr ⟨ex, by rw [h1, hc], h2, by rw [h3, he]⟩

lemma stepSpec_visualize_calls (env : Env) (ast tmap outd : String) (s : St) :
    StepSpec env s (visualize_calls env ast tmap outd s) := by
  unfold visualize_calls
  have hc : (if !(path_exists s outd) then makedirs s outd else s).calls = s.calls := by
    split <;> rfl
  have he : (if !(path_exists s outd) then makedirs s outd else s).err = s.err := by
    split <;> rfl
  set s1 := if !(path_exists s outd) then makedirs s outd else s with hs1
  show StepSpec env s (match s1.fs tmap with
    | none => Except.error (1, s1)
    | some content =>
      match env.decode content with
      | none => Except.error (1, s1)
      | some entries => visualize_loop env ast outd entries s1)
  cases hf : s1.fs tmap with
  | none =>
    exact Or.inr ⟨[], by simp [hc], callsOk_nil env, he⟩
  | some content =>
    show StepSpec env s (match env.decode content with
      | none => Except.error (1, s1)
      | some entries => visualize_loop env ast outd entries s1)
    cases hd : env.decode content with
    | none =>
      exact Or.inr ⟨[], by simp [hc], callsOk_nil env, he⟩
    | some entries =>
      exact stepSpec_of_calls_err env hc he
        (stepSpec_visualize_loop env ast outd entries s1)

/-- Claim C1: in a run starting from a fresh call trace, if some
external invocation in the run's trace exited with a non-zero status,
then the whole workflow terminated with exactly that status, that
invocation is the last one of the trace (nothing external ran after
it), and a stderr diagnostic naming the failed command was written. -/
theorem C1_fatal_propagation (env : Env) (lxc astviz code sbom outd : String)
    (s0 : St) (h0 : s0.calls = []) (c : Cmd) (fd : FS × DS)
    (hmem : (c, fd) ∈ (workflow env lxc astviz code sbom outd s0).2.calls)
    (hexit : env.exit c fd.1 ≠ 0) :
    (workflow env lxc astviz code sbom outd s0).1 = env.exit c fd.1 ∧
    (workflow env lxc astviz code sbom outd s0).2.calls.getLast? = some (c, fd) ∧
    cmdFail c ∈ (workflow env lxc astviz code sbom outd s0).2.err := by
  have hspec : StepSpec env s0 (seqE (ensure_mapping env lxc code sbom
      (path_join lxc "risk_db.json") (path_join lxc "risk_db_llm.json")
      (path_join lxc "threat_map.json") s0)
      (fun s => visualize_calls env astviz (path_join lxc "threat_map.json") outd s)) :=
    stepSpec_seqE env (stepSpec_ensure_mapping env lxc code sbom _ _ _ s0)
      (fun s1 => stepSpec_visualize_calls env astviz _ outd s1)
  revert hmem
  simp only [workflow]
  cases hr : seqE (ensure_mapping env lxc code sbom
      (path_join lxc "risk_db.json") (path_join lxc "risk_db_llm.json")
      (path_join lxc "threat_map.json") s0)
      (fun s => visualize_calls env astviz (path_join lxc "threat_map.json") outd s) with
  | ok s =>
    rw [hr] at hspec
    obtain ⟨ex, hcalls, hok, _⟩ := hspec
    intro hmem
    rw [hcalls, h0] at hmem
    simp only [List.nil_append] at hmem
    exact absurd (hok _ hmem) hexit
  | error e =>
    rcases e with ⟨n, s⟩
    rw [hr] at hspec
    rcases hspec with ⟨ex, c0, fd0, hcalls, hok, hex, hn, herr⟩ | ⟨ex, hcalls, hok, _⟩
    · intro hmem
      rw [hcalls, h0] at hmem
      simp only [List.nil_append] at hmem
      rcases List.mem_append.mp hmem with hin | hlast
      · exact absurd (hok _ hin) hexit
      · rw [List.mem_singleton] at hlast
        rcases Prod.mk.injEq .. ▸ hlast with ⟨hc, hfd⟩
        subst hc; subst hfd
        refine ⟨by rw [hex], ?_, ?_⟩
        · rw [hcalls, h0]
          simp [List.getLast?_concat]
        · rw [herr]
          exact List.mem_append_right _ (List.mem_singleton.mpr rfl)
    · intro hmem
      rw [hcalls, h0] at hmem
      simp only [List.nil_append] at hmem
      exact absurd (hok _ hmem) hexit

def c1_env : Env := ⟨fun _ _ => 3, fun _ f => f, fun _ => none⟩

def c1_st : St := ⟨fun _ => none, fun _ => false, [], [], []⟩

def c1_call : Cmd × FS × DS :=
  (extract_cmd "S" (path_join "L" "risk_db.json") "L", c1_st.fs, c1_st.dirs)

/-- Witness for C1: with the extraction tool exiting with status 3 on a
fresh state, the workflow exits with status 3, the extraction call is
the last (and only) invocation, and the diagnostic is on stderr. -/
theorem C1_fatal_propagation_witness :
    (workflow c1_env "L" "A" "C" "S" "O" c1_st).1 = c1_env.exit c1_call.1 c1_call.2.1 ∧
    (workflow c1_env "L" "A" "C" "S" "O" c1_st).2.calls.getLast? = some (c1_call.1, c1_call.2) ∧
    cmdFail c1_call.1 ∈ (workflow c1_env "L" "A" "C" "S" "O" c1_st).2.err :=
  C1_fatal_propagation c1_env "L" "A" "C" "S" "O" c1_st rfl c1_call.1 c1_call.2
    (List.mem_singleton.mpr rfl) (by decide)

/-! ### Claim C3: stage-order invariant -/

/-- Final state of a run, whether it returned or exited. -/
def stOf (r : Except (Int × St) St) : St :=
  match r with
  | .ok s => s
  | .error (_, s) => s

/-- `os.path.exists` evaluated on a recorded snapshot. -/
def snap_exists (fd : FS × DS) (path : String) : Bool :=
  (fd.1 path).isSome || fd.2 path

/-- The stage-order requirement on one recorded invocation: an
enrichment call sees an existing risk DB, a mapping call sees an
existing enriched DB. -/
def ord_pred (code risk enriched tmap lxc : String) (p : Cmd × FS × DS) : Prop :=
  (p.1 = enrich_cmd risk enriched lxc → snap_exists p.2 risk = true) ∧
  (p.1 = map_cmd code enriched tmap lxc → snap_exists p.2 enriched = true)

lemma extract_ne_enrich (a b c d e f : String) :
    extract_cmd a b c ≠ enrich_cmd d e f := by
  intro h
  have := congrArg (fun x => x.argv.length) h
  simp [extract_cmd, enrich_cmd] at this

lemma extract_ne_map (a b c d e f g : String) :
    extract_cmd a b c ≠ map_cmd d e f g := by
  intro h
  have := congrArg (fun x => x.argv.length) h
  simp [extract_cmd, map_cmd] at this

lemma enrich_ne_map (a b c d e f g : String) :
    enrich_cmd a b c ≠ map_cmd d e f g := by
  intro h
  have := congrArg (fun x => x.argv.length) h
  simp [enrich_cmd, map_cmd] at this

lemma run_command_cases (env : Env) (c : Cmd) (s : St) :
    (env.exit c s.fs = 0 ∧ run_command env c s = .ok
      ⟨env.eff c s.fs, s.dirs, s.out ++ ["Running: " ++ joinSpace c.argv], s.err,
        s.calls ++ [(c, s.fs, s.dirs)]⟩) ∨
    (env.exit c s.fs ≠ 0 ∧ run_command env c s = .error (env.exit c s.fs,
      ⟨env.eff c s.fs, s.dirs, s.out ++ ["Running: " ++ joinSpace c.argv],
        s.err ++ [cmdFail c], s.calls ++ [(c, s.fs, s.dirs)]⟩)) := by
  by_cases h : env.exit c s.fs = 0
  · left
    refine ⟨h, ?_⟩
    simp only [run_command]
    rw [if_pos h]
  · right
    refine ⟨h, ?_⟩
    simp only [run_command]
    rw [if_neg h]

lemma gate_open_exists {s : St} {p : String} (h : ¬((!path_exists s p) = true)) :
    ((s.fs p).isSome || s.dirs p) = true := by
  revert h
  unfold path_exists
  cases (s.fs p).isSome || s.dirs p
  · intro h; exact absurd rfl h
  · intro _; rfl

lemma stage_map_ord (env : Env) (lxc code risk enriched tmap : String) (s : St)
    (hen : ((s.fs enriched).isSome || s.dirs enriched) = true) :
    ∃ new, (stOf (stage_map env lxc code enriched tmap s)).calls = s.calls ++ new ∧
      ∀ p ∈ new, ord_pred code risk enriched tmap lxc p := by
  unfold stage_map
  split
  · refine ⟨[(map_cmd code enriched tmap lxc, s.fs, s.dirs)], ?_, ?_⟩
    · rcases run_command_cases env (map_cmd code enriched tmap lxc) s with ⟨_, hrc⟩ | ⟨_, hrc⟩ <;>
        rw [hrc] <;> rfl
    · intro p hp
      rw [List.mem_singleton] at hp
      subst hp
      exact ⟨fun h => absurd h.symm (enrich_ne_map _ _ _ _ _ _ _), fun _ => hen⟩
  · exact ⟨[], by simp [stOf], fun p hp => absurd hp (List.not_mem_nil p)⟩

lemma enrich_then_map_ord (env : Env) (lxc code risk enriched tmap : String)
    (s1 : St) (hrisk : ((s1.fs risk).isSome || s1.dirs risk) = true)
    (henr : ∀ f : FS, env.exit (enrich_cmd risk enriched lxc) f = 0 →
      (env.eff (enrich_cmd risk enriched lxc) f enriched).isSome = true) :
    ∃ new, (stOf (seqE (stage_enrich env lxc risk enriched s1)
        (fun s2 => stage_map env lxc code enriched tmap s2))).calls
        = s1.calls ++ new ∧
      ∀ p ∈ new, ord_pred code risk enriched tmap lxc p := by
  unfold stage_enrich
  split
  · -- the enrichment tool runs
    rcases run_command_cases env (enrich_cmd risk enriched lxc) s1 with ⟨hx, hrc⟩ | ⟨hx, hrc⟩
    · -- it succeeds; its contract created the enriched DB
      rw [hrc]
      simp only [seqE]
      obtain ⟨new2, hc2, hp2⟩ := stage_map_ord env lxc code risk enriched tmap
        ⟨env.eff (enrich_cmd risk enriched lxc) s1.fs, s1.dirs,
          s1.out ++ ["Running: " ++ joinSpace (enrich_cmd risk enriched lxc).argv], s1.err,
          s1.calls ++ [(enrich_cmd risk enriched lxc, s1.fs, s1.dirs)]⟩
        (by simp [henr s1.fs hx])
      refine ⟨(enrich_cmd risk enriched lxc, s1.fs, s1.dirs) :: new2, ?_, ?_⟩
      · rw [hc2]
        simp
      · intro p hp
        rcases List.mem_cons.mp hp with h | h
        · subst h
          exact ⟨fun _ => hrisk, fun h => absurd h (enrich_ne_map _ _ _ _ _ _ _)⟩
        · exact hp2 p h
    · -- it fails; the run exits with its status, no further call
      rw [hrc]
      simp only [seqE, stOf]
      refine ⟨[(enrich_cmd risk enriched lxc, s1.fs, s1.dirs)], by simp, ?_⟩
      intro p hp
      rw [List.mem_singleton] at hp
      subst hp
      exact ⟨fun _ => hrisk, fun h => absurd h (enrich_ne_map _ _ _ _ _ _ _)⟩
  · -- the enriched DB already exists; enrichment skipped
    rename_i hcond
    obtain ⟨new2, hc2, hp2⟩ := stage_map_ord env lxc code risk enriched tmap
      { s1 with out := s1.out ++ ["Found existing enriched DB: " ++ enriched] }
      (gate_open_exists hcond)
    exact ⟨new2, by simpa using hc2, hp2⟩

def c3_env : Env :=
  ⟨fun _ _ => 0, fun _ _ => fun _ => some "x", fun _ => none⟩

def c3_st : St :=
  ⟨fun p => if p = "r.json" then some "" else none, fun _ => false, [], [], []⟩

/-- Counterexample to claim C3 as stated: with a pre-existing but EMPTY
risk DB file, the extraction stage is skipped and the enrichment tool is
invoked while the risk DB artifact is empty — existence, not
non-emptiness, is the only gate the code checks. -/
theorem C3_counterexample :
    (enrich_cmd "r.json" "e.json" "L", c3_st.fs, c3_st.dirs) ∈
      (stOf (ensure_mapping c3_env "L" "C" "S" "r.json" "e.json" "t.json" c3_st)).calls ∧
    c3_st.fs "r.json" = some "" :=
  ⟨List.Mem.head _, rfl⟩

/-- Claim C3 (amended): provided each successful tool invocation creates
its declared output artifact (the §6 contract of the external tools),
the enrichment tool is never invoked while the risk DB is NONEXISTENT,
and the mapping tool never while the enriched DB is NONEXISTENT; an
existing-but-empty artifact, however, does not prevent the next stage,
because existence is the only idempotence signal checked. -/
theorem C3_stage_order (env : Env) (lxc code sbom risk enriched tmap : String)
    (s : St) (h0 : s.calls = [])
    (hext : ∀ f : FS, env.exit (extract_cmd sbom risk lxc) f = 0 →
      (env.eff (extract_cmd sbom risk lxc) f risk).isSome = true)
    (henr : ∀ f : FS, env.exit (enrich_cmd risk enriched lxc) f = 0 →
      (env.eff (enrich_cmd risk enriched lxc) f enriched).isSome = true) :
    ∀ p ∈ (stOf (ensure_mapping env lxc code sbom risk enriched tmap s)).calls,
      ord_pred code risk enriched tmap lxc p := by
  unfold ensure_mapping stage_extract
  split
  · -- extraction runs
    rcases run_command_cases env (extract_cmd sbom risk lxc) s with ⟨hx, hrc⟩ | ⟨hx, hrc⟩
    · -- success: the contract created the risk DB
      rw [hrc]
      simp only [seqE]
      obtain ⟨new, hc, hp⟩ := enrich_then_map_ord env lxc code risk enriched tmap
        ⟨env.eff (extract_cmd sbom risk lxc) s.fs, s.dirs,
          s.out ++ ["Running: " ++ joinSpace (extract_cmd sbom risk lxc).argv], s.err,
          s.calls ++ [(extract_cmd sbom risk lxc, s.fs, s.dirs)]⟩
        (by simp [hext s.fs hx]) henr
      simp only [seqE] at hc
      intro p hmem
      rw [hc] at hmem
      simp only [h0, List.nil_append, List.mem_append, List.mem_singleton] at hmem
      rcases hmem with h | h
      · subst h
        exact ⟨fun h => absurd h (extract_ne_enrich _ _ _ _ _ _),
          fun h => absurd h (extract_ne_map _ _ _ _ _ _ _)⟩
      · exact hp p h
    · -- failure: the run exits; the only call is the extraction call
      rw [hrc]
      simp only [seqE, stOf]
      intro p hmem
      simp only [h0, List.nil_append, List.mem_singleton] at hmem
      subst hmem
      exact ⟨fun h => absurd h (extract_ne_enrich _ _ _ _ _ _),
        fun h => absurd h (extract_ne_map _ _ _ _ _ _ _)⟩
  · -- the risk DB already exists; extraction skipped
    rename_i hcond
    obtain ⟨new, hc, hp⟩ := enrich_then_map_ord env lxc code risk enriched tmap
      { s with out := s.out ++ ["Found existing risk DB: " ++ risk] }
      (gate_open_exists hcond) henr
    simp only [seqE] at hc ⊢
    intro p hmem
    rw [hc] at hmem
    simp only [h0, List.nil_append] at hmem
    exact hp p hmem

def c3w_env : Env :=
  ⟨fun _ _ => 0,
   fun c f => fun p => if c.argv.getLast? = some p then some "db" else f p,
   fun _ => none⟩

def c3w_st : St := ⟨fun _ => none, fun _ => false, [], [], []⟩

/-- Witness for the amended C3: in a run where every tool succeeds and
writes its declared output, the enrichment invocation's snapshot shows
the risk DB created by the preceding extraction. -/
theorem C3_stage_order_witness :
    snap_exists (c3w_env.eff (extract_cmd "S" "r.json" "L") c3w_st.fs,
      c3w_st.dirs) "r.json" = true :=
  (C3_stage_order c3w_env "L" "C" "S" "r.json" "e.json" "t.json" c3w_st rfl
    (fun _ _ => rfl) (fun _ _ => rfl)
    (enrich_cmd "r.json" "e.json" "L",
      c3w_env.eff (extract_cmd "S" "r.json" "L") c3w_st.fs, c3w_st.dirs)
    (List.Mem.tail _ (List.Mem.head _))).1 rfl

/-! ### Claim C10: an empty threat map -/

/-- Claim C10: when the pipeline phase succeeds and the threat-map
artifact decodes to an empty entry sequence, the visualization phase
still leaves the workflow with exit code 0, issues no external
invocation of its own, and the output directory exists afterwards
(created if it was absent). -/
theorem C10_empty_threat_map (env : Env) (lxc astviz code sbom outd : String)
    (s0 s1 : St) (content : String)
    (hpipe : ensure_mapping env lxc code sbom (path_join lxc "risk_db.json")
        (path_join lxc "risk_db_llm.json") (path_join lxc "threat_map.json") s0
        = .ok s1)
    (hcontent : s1.fs (path_join lxc "threat_map.json") = some content)
    (hdec : env.decode content = some []) :
    (workflow env lxc astviz code sbom outd s0).1 = 0 ∧
    (workflow env lxc astviz code sbom outd s0).2.calls = s1.calls ∧
    path_exists (workflow env lxc astviz code sbom outd s0).2 outd = true := by
  have hviz : visualize_calls env astviz (path_join lxc "threat_map.json") outd s1 =
      .ok (if !(path_exists s1 outd) then makedirs s1 outd else s1) := by
    unfold visualize_calls
    have hfs : (if !(path_exists s1 outd) then makedirs s1 outd else s1).fs = s1.fs := by
      split <;> rfl
    show (match (if !(path_exists s1 outd) then makedirs s1 outd else s1).fs
        (path_join lxc "threat_map.json") with
      | none => Except.error (1, if !(path_exists s1 outd) then makedirs s1 outd else s1)
      | some content =>
        match env.decode content with
        | none => Except.error (1, if !(path_exists s1 outd) then makedirs s1 outd else s1)
        | some entries => visualize_loop env astviz outd entries
            (if !(path_exists s1 outd) then makedirs s1 outd else s1)) = _
    rw [hfs]
    simp only [hcontent, hdec]
    rfl
  simp only [workflow]
  rw [hpipe]
  simp only [seqE]
  rw [hviz]
  refine ⟨rfl, ?_, ?_⟩
  · show (if !(path_exists s1 outd) then makedirs s1 outd else s1).calls = s1.calls
    split <;> rfl
  · show (((if !(path_exists s1 outd) then makedirs s1 outd else s1).fs outd).isSome
      || (if !(path_exists s1 outd) then makedirs s1 outd else s1).dirs outd) = true
    by_cases h : path_exists s1 outd = true
    · rw [if_neg (by simp [h])]
      exact h
    · rw [if_pos (by simp [h])]
      simp [makedirs]

def c10_env : Env :=
  ⟨fun _ _ => 0, fun _ f => f, fun c => if c = "[]" then some [] else none⟩

def c10_st : St :=
  ⟨fun p =>
    if p = path_join "L" "threat_map.json" then some "[]"
    else if p = path_join "L" "risk_db.json" then some "db"
    else if p = path_join "L" "risk_db_llm.json" then some "db"
    else none,
   fun _ => false, [], [], []⟩

def c10_s1 : St :=
  { c10_st with out :=
      ["Found existing risk DB: " ++ path_join "L" "risk_db.json",
       "Found existing enriched DB: " ++ path_join "L" "risk_db_llm.json",
       "Found existing threat map: " ++ path_join "L" "threat_map.json"] }

/-- Witness for C10: three pre-existing artifacts, a threat map decoding
to no entries — the workflow exits 0 with no external invocation and an
output directory in place. -/
theorem C10_empty_threat_map_witness :
    (workflow c10_env "L" "A" "C" "S" "O" c10_st).1 = 0 ∧
    (workflow c10_env "L" "A" "C" "S" "O" c10_st).2.calls = c10_s1.calls ∧
    path_exists (workflow c10_env "L" "A" "C" "S" "O" c10_st).2 "O" = true :=
  C10_empty_threat_map c10_env "L" "A" "C" "S" "O" c10_st c10_s1 "[]" rfl rfl rfl

end Orch
